import Mathlib

/-!
Verification of the scryfall-cache-microservice specification against its
Rust source, via a shallow embedding of the relevant program fragments in
Lean 4.  Each section below embeds one component (query parser, validator,
query translator, HTTP error codes, cache-manager read path, bulk loader,
circuit breaker, pagination) as executable Lean definitions translated
from the Rust source files, and proves or refutes the frozen claims about
them.
-/

set_option maxRecDepth 4000

namespace ScryfallCache

/-! ## Error codes (src/errors/codes.rs) -/

/-- Embedding of `ErrorCode` (src/errors/codes.rs). -/
inductive ErrorCode where
  | invalidQuery
  | cardNotFound
  | rateLimitExceeded
  | databaseError
  | scryfallApiError
  | invalidApiKey
  | validationError
  | internalError
deriving DecidableEq, Repr

/-- Embedding of `ErrorCode::status_code` (src/errors/codes.rs:59-70). -/
def ErrorCode.statusCode : ErrorCode → Nat
  | .invalidQuery => 400
  | .cardNotFound => 404
  | .rateLimitExceeded => 429
  | .databaseError => 503
  | .scryfallApiError => 502
  | .invalidApiKey => 401
  | .validationError => 400
  | .internalError => 500

/-- Embedding of the `Display` rendering of `ErrorCode`
(src/errors/codes.rs:42-55), which is also the wire string used in the
JSON error envelope. -/
def ErrorCode.codeString : ErrorCode → String
  | .invalidQuery => "INVALID_QUERY"
  | .cardNotFound => "CARD_NOT_FOUND"
  | .rateLimitExceeded => "RATE_LIMIT_EXCEEDED"
  | .databaseError => "DATABASE_ERROR"
  | .scryfallApiError => "SCRYFALL_API_ERROR"
  | .invalidApiKey => "INVALID_API_KEY"
  | .validationError => "VALIDATION_ERROR"
  | .internalError => "INTERNAL_ERROR"

/-! ## Query AST (src/query/parser.rs) -/

/-- Embedding of `Operator` (src/query/parser.rs:19-29). -/
inductive Operator where
  | equal
  | notEqual
  | greaterThan
  | lessThan
  | greaterThanOrEqual
  | lessThanOrEqual
  | contains
  | regex
deriving DecidableEq, Repr

/-- Embedding of `Filter` (src/query/parser.rs:12-17). -/
structure Filter where
  field : String
  operator : Operator
  value : String
deriving DecidableEq, Repr

/-- Embedding of `QueryNode` (src/query/parser.rs:4-10). -/
inductive QueryNode where
  | and : List QueryNode → QueryNode
  | or : List QueryNode → QueryNode
  | not : QueryNode → QueryNode
  | filter : Filter → QueryNode
deriving Repr

/-! ## String helpers

The Rust code uses `str::to_lowercase`, `split_once`, `starts_with`,
`ends_with` and slicing.  They are embedded here as character-list
operations (all inputs the claims exercise are ASCII, where Rust's
Unicode lowercasing coincides with ASCII lowercasing). -/

/-- ASCII lowercasing of one character (`char::to_lowercase` on ASCII). -/
def charLower (c : Char) : Char :=
  if 'A' ≤ c ∧ c ≤ 'Z' then Char.ofNat (c.toNat + 32) else c

/-- ASCII lowercasing of a string (`str::to_lowercase` on ASCII). -/
def lowerAscii (s : String) : String :=
  String.mk (s.toList.map charLower)

/-- `str::starts_with` as a character-list check. -/
def strStartsWith (s p : String) : Bool :=
  p.toList.isPrefixOf s.toList

/-- `str::ends_with` as a character-list check. -/
def strEndsWith (s p : String) : Bool :=
  p.toList.isSuffixOf s.toList

/-- Drop the first `n` characters (Rust slicing past a recognized ASCII
operator, or `strip_prefix` remainder). -/
def strDrop (s : String) (n : Nat) : String :=
  String.mk (s.toList.drop n)

/-- Drop the last `n` characters (Rust slicing `s[1..s.len()-1]`). -/
def strDropRight (s : String) (n : Nat) : String :=
  String.mk (s.toList.take (s.toList.length - n))

/-- Character count of a string. -/
def strLength (s : String) : Nat := s.toList.length

/-! ## Parser filter handling (src/query/parser.rs) -/

/-- Embedding of `QueryParser::normalize_field` (src/query/parser.rs:235-249).
On no alias match the ORIGINAL (non-lowercased) field string is returned. -/
def normalizeField (field : String) : String :=
  match lowerAscii field with
  | "c" => "color"
  | "id" => "color_identity"
  | "identity" => "color_identity"
  | "t" => "type"
  | "o" => "oracle"
  | "s" => "set"
  | "r" => "rarity"
  | "pow" => "power"
  | "tou" => "toughness"
  | "loy" => "loyalty"
  | _ => field

/-- Embedding of `QueryParser::parse_operator_and_value`
(src/query/parser.rs:215-233): inspects the prefix of the text after the
first colon to detect the operator. -/
def parseOperatorAndValue (s : String) : Operator × String :=
  if strStartsWith s ">=" then (.greaterThanOrEqual, strDrop s 2)
  else if strStartsWith s "<=" then (.lessThanOrEqual, strDrop s 2)
  else if strStartsWith s ">" then (.greaterThan, strDrop s 1)
  else if strStartsWith s "<" then (.lessThan, strDrop s 1)
  else if strStartsWith s "!=" then (.notEqual, strDrop s 2)
  else if strStartsWith s "=" then (.equal, strDrop s 1)
  else if strStartsWith s "/" && strEndsWith s "/" && strLength s > 2 then
    (.regex, strDropRight (strDrop s 1) 1)
  else (.contains, s)

/-- `value.trim_matches('"')`: strip all leading and trailing double
quotes (src/query/parser.rs:203,210). -/
def trimQuotes (s : String) : String :=
  let l := s.toList.dropWhile (fun c => c = '"')
  String.mk ((l.reverse.dropWhile (fun c => c = '"')).reverse)

/-- `token.split_once(':')` (src/query/parser.rs:197): split at the first
colon, `none` when the token has no colon. -/
def splitOnceColon (s : String) : Option (String × String) :=
  let sp := s.toList.span (fun c => c ≠ ':')
  match sp.2 with
  | [] => none
  | _ :: rest => some (String.mk sp.1, String.mk rest)

/-- Embedding of `QueryParser::parse_filter` restricted to a single token
(src/query/parser.rs:188-213): `field:rest` tokens become a `Filter` with
the normalized field, detected operator and quote-trimmed value; a bare
word becomes a `name`-contains filter. -/
def parseFilterToken (token : String) : Filter :=
  match splitOnceColon token with
  | some (field, rest) =>
      let ov := parseOperatorAndValue rest
      { field := normalizeField field, operator := ov.1, value := trimQuotes ov.2 }
  | none =>
      { field := "name", operator := .contains, value := trimQuotes token }

/-! ## Validator (src/query/validator.rs) -/

/-- Embedding of `VALID_FIELDS` (src/query/validator.rs:8-26). -/
def validFields : List String :=
  ["name", "type", "oracle", "color", "colors", "cmc", "mana", "power",
   "toughness", "set", "rarity", "artist", "flavor", "border", "frame",
   "layout", "loyalty"]

/-- Embedding of `NUMERIC_FIELDS` (src/query/validator.rs:29). -/
def numericFields : List String := ["cmc", "power", "toughness", "loyalty"]

/-- Embedding of `VALID_COLORS` (src/query/validator.rs:32). -/
def validColors : List Char := ['w', 'u', 'b', 'r', 'g', 'c']

/-- The allowed-field check of `QueryValidator::validate_filter`
(src/query/validator.rs:139-148): the filter field is lowercased and
looked up in the valid-field set. -/
def fieldAllowed (field : String) : Bool :=
  validFields.contains (lowerAscii field)

/-- Embedding of the operator check of `QueryValidator::validate_filter`
(src/query/validator.rs:151-166): numeric comparison operators are only
allowed on numeric fields. -/
def operatorAllowed (field : String) (op : Operator) : Bool :=
  if numericFields.contains (lowerAscii field) then true
  else
    match op with
    | .greaterThan | .lessThan | .greaterThanOrEqual | .lessThanOrEqual => false
    | _ => true

/-- Embedding of the color-code check of `QueryValidator::validate_filter`
(src/query/validator.rs:169-180). -/
def colorValueAllowed (field : String) (value : String) : Bool :=
  if lowerAscii field = "color" || lowerAscii field = "colors" then
    value.toList.all (fun ch => validColors.contains (charLower ch))
  else true

/-- Embedding of `QueryValidator::validate_filter` (src/query/validator.rs:138-183)
as a boolean: all three checks pass. -/
def validateFilter (f : Filter) : Bool :=
  fieldAllowed f.field && operatorAllowed f.field f.operator &&
    colorValueAllowed f.field f.value

/-- The parenthesis scan of `QueryValidator::validate_query_string`
(src/query/validator.rs:65-86): a running counter is incremented on `(`,
decremented on `)`, with an error as soon as it goes negative, and an
error when it is nonzero at the end. -/
def parenScan : List Char → Nat → Except String Unit
  | [], count => if count ≠ 0 then .error "Unbalanced parentheses: unclosed parentheses" else .ok ()
  | c :: rest, count =>
      if c = '(' then parenScan rest (count + 1)
      else if c = ')' then
        if count = 0 then .error "Unbalanced parentheses: too many closing parentheses"
        else parenScan rest (count - 1)
      else parenScan rest count

/-- UTF-8 byte length of a string (`str::len` in Rust). -/
def strByteLength (s : String) : Nat :=
  s.toList.foldl (fun n c => n + c.utf8Size) 0

/-- Embedding of `QueryValidator::validate_query_string`
(src/query/validator.rs:55-89): length check (bytes) then balanced-paren
check. -/
def validateQueryString (maxQueryLength : Nat) (q : String) : Except String Unit :=
  if strByteLength q > maxQueryLength then .error "Query too long"
  else parenScan q.toList 0

/-! ## Search handler pre-parse rejection (src/api/handlers.rs) -/

/-- Embedding of the rejection logic at the top of the `search_cards`
handler (src/api/handlers.rs:449-452): a failing
`validate_query_string` is answered with
`ErrorResponse::validation_error`, i.e. error code `VALIDATION_ERROR`,
before the query is ever parsed.  Returns the error code of the
response, or `none` when the handler proceeds to the parse step. -/
def searchCardsEarlyReject (maxQueryLength : Nat) (q : String) : Option ErrorCode :=
  match validateQueryString maxQueryLength q with
  | .error _ => some .validationError
  | .ok _ => none

/-! ## Query translator (src/query/executor.rs) -/

/-- Embedding of `QueryExecutor::build_text_search`
(src/query/executor.rs:241-251). -/
def buildTextSearch (field : String) (paramIndex : Nat) (op : Operator) : String :=
  match op with
  | .equal => "LOWER(" ++ field ++ ") = LOWER($" ++ toString paramIndex ++ ")"
  | .contains =>
      "to_tsvector(\x27english\x27, " ++ field ++
        ") @@ plainto_tsquery(\x27english\x27, $" ++ toString paramIndex ++ ")"
  | .regex => field ++ " ~ $" ++ toString paramIndex
  | _ => field ++ " ILIKE \x27%\x27 || $" ++ toString paramIndex ++ " || \x27%\x27"

/-- Embedding of `QueryExecutor::build_numeric_comparison`
(src/query/executor.rs:253-270). -/
def buildNumericComparison (field : String) (paramIndex : Nat) (op : Operator) : String :=
  let opStr :=
    match op with
    | .equal => "="
    | .contains => "="
    | .notEqual => "!="
    | .greaterThan => ">"
    | .lessThan => "<"
    | .greaterThanOrEqual => ">="
    | .lessThanOrEqual => "<="
    | .regex => "="
  field ++ " " ++ opStr ++ " $" ++ toString paramIndex ++ "::numeric"

/-- One character of the color-code decoding used by
`build_color_clause`/`build_color_identity_clause`
(src/query/executor.rs:281-297): unknown characters map to the empty
string and are filtered out. -/
def colorCode (c : Char) : String :=
  match charLower c with
  | 'w' => "W"
  | 'u' => "U"
  | 'b' => "B"
  | 'r' => "R"
  | 'g' => "G"
  | 'c' => "C"
  | _ => ""

/-- Decode a color value string into uppercase color codes
(src/query/executor.rs:281-297). -/
def parseColorCodes (value : String) : List String :=
  ((value.toList.filter (fun c => !c.isWhitespace)).map colorCode).filter
    (fun s => s ≠ "")

/-- Embedding of `QueryExecutor::build_color_clause`
(src/query/executor.rs:272-310): only the FIRST decoded color is pushed
as a parameter; an empty decoding yields a no-color predicate with no
parameter. -/
def buildColorClause (value : String) (op : Operator) (params : List String) :
    String × List String :=
  let paramIndex := params.length + 1
  match parseColorCodes value with
  | [] => ("colors IS NULL OR colors = \x27\x7b\x7d\x27", params)
  | c0 :: _ =>
      let ps := params ++ [c0]
      match op with
      | .notEqual => ("NOT ($" ++ toString paramIndex ++ " = ANY(colors))", ps)
      | _ => ("$" ++ toString paramIndex ++ " = ANY(colors)", ps)

/-- Embedding of `QueryExecutor::build_color_identity_clause`
(src/query/executor.rs:312-352). -/
def buildColorIdentityClause (value : String) (op : Operator) (params : List String) :
    String × List String :=
  let paramIndex := params.length + 1
  match parseColorCodes value with
  | [] => ("color_identity IS NULL OR color_identity = \x27\x7b\x7d\x27", params)
  | c0 :: _ =>
      let ps := params ++ [c0]
      match op with
      | .notEqual => ("NOT ($" ++ toString paramIndex ++ " = ANY(color_identity))", ps)
      | _ => ("$" ++ toString paramIndex ++ " = ANY(color_identity)", ps)

/-- Embedding of `QueryExecutor::build_filter_clause`
(src/query/executor.rs:179-239).  The accumulated parameter list is
threaded exactly as the Rust `&mut Vec<String>` is: the clause string
uses placeholder `$(params.len() + 1)` and values are appended. -/
def buildFilterClause (f : Filter) (params : List String) : String × List String :=
  let paramIndex := params.length + 1
  match f.field with
  | "name" => (buildTextSearch "name" paramIndex f.operator, params ++ [f.value])
  | "oracle" => (buildTextSearch "oracle_text" paramIndex f.operator, params ++ [f.value])
  | "oracle_text" => (buildTextSearch "oracle_text" paramIndex f.operator, params ++ [f.value])
  | "type" => (buildTextSearch "type_line" paramIndex f.operator, params ++ [f.value])
  | "type_line" => (buildTextSearch "type_line" paramIndex f.operator, params ++ [f.value])
  | "color" => buildColorClause f.value f.operator params
  | "c" => buildColorClause f.value f.operator params
  | "color_identity" => buildColorIdentityClause f.value f.operator params
  | "id" => buildColorIdentityClause f.value f.operator params
  | "identity" => buildColorIdentityClause f.value f.operator params
  | "set" => ("set_code = $" ++ toString paramIndex, params ++ [lowerAscii f.value])
  | "s" => ("set_code = $" ++ toString paramIndex, params ++ [lowerAscii f.value])
  | "rarity" => ("rarity = $" ++ toString paramIndex, params ++ [lowerAscii f.value])
  | "r" => ("rarity = $" ++ toString paramIndex, params ++ [lowerAscii f.value])
  | "cmc" => (buildNumericComparison "cmc" paramIndex f.operator, params ++ [f.value])
  | "power" => (buildNumericComparison "power::numeric" paramIndex f.operator, params ++ [f.value])
  | "pow" => (buildNumericComparison "power::numeric" paramIndex f.operator, params ++ [f.value])
  | "toughness" => (buildNumericComparison "toughness::numeric" paramIndex f.operator, params ++ [f.value])
  | "tou" => (buildNumericComparison "toughness::numeric" paramIndex f.operator, params ++ [f.value])
  | "loyalty" => (buildNumericComparison "loyalty::numeric" paramIndex f.operator, params ++ [f.value])
  | "loy" => (buildNumericComparison "loyalty::numeric" paramIndex f.operator, params ++ [f.value])
  | _ => (buildTextSearch "name" paramIndex f.operator, params ++ [f.value])

mutual

/-- Embedding of `QueryExecutor::build_where_clause_inner`
(src/query/executor.rs:151-177): returns the clause string and the full
parameter vector after appending this node's parameters. -/
def buildWhereClauseInner : QueryNode → List String → String × List String
  | .and nodes, params =>
      let r := buildClauseList nodes params
      ("(" ++ String.intercalate " AND " r.1 ++ ")", r.2)
  | .or nodes, params =>
      let r := buildClauseList nodes params
      ("(" ++ String.intercalate " OR " r.1 ++ ")", r.2)
  | .not inner, params =>
      let r := buildWhereClauseInner inner params
      ("NOT (" ++ r.1 ++ ")", r.2)
  | .filter f, params => buildFilterClause f params

/-- The child iteration of `build_where_clause_inner` over an `And`/`Or`
node's children (the `nodes.iter().map(...)` in
src/query/executor.rs:157-169), threading the parameter vector left to
right. -/
def buildClauseList : List QueryNode → List String → List String × List String
  | [], params => ([], params)
  | n :: rest, params =>
      let r := buildWhereClauseInner n params
      let rs := buildClauseList rest r.2
      (r.1 :: rs.1, rs.2)

end

/-- Embedding of `QueryExecutor::build_where_clause`
(src/query/executor.rs:145-149): run the inner builder on an empty
parameter vector. -/
def buildWhereClause (n : QueryNode) : String × List String :=
  buildWhereClauseInner n []

/-! ## Bulk loader (src/scryfall/bulk_loader.rs) -/

/-- `chrono::Duration::num_hours` on a duration given in seconds: whole
hours, truncated toward zero (`Int.div` is Rust/chrono-style
T-division). -/
def numHours (seconds : Int) : Int := Int.tdiv seconds 3600

/-- Embedding of `BulkLoader::should_load`
(src/scryfall/bulk_loader.rs:100-136).  `hasCards` is the store's
`check_bulk_data_loaded` result, `lastImport` its `get_last_bulk_import`
result (timestamps in seconds), `now` the current time in seconds and
`ttlHours` the configured `cache_ttl_hours`.  Store errors propagate. -/
def shouldLoad (hasCards : Except Unit Bool) (lastImport : Except Unit (Option Int))
    (now : Int) (ttlHours : Nat) : Except Unit Bool := do
  let hc ← hasCards
  if !hc then
    return true
  let li ← lastImport
  match li with
  | some t =>
      if numHours (now - t) ≥ (ttlHours : Int) then return true else return false
  | none => return false

/-- The record-by-record state of the import loop of
`BulkLoader::download_and_import` (src/scryfall/bulk_loader.rs:441-497):
a success counter, a failure counter, and the current batch buffer
length. -/
structure ImportAcc where
  imported : Nat
  failed : Nat
  batchLen : Nat
deriving DecidableEq, Repr

/-- One iteration of the import loop
(src/scryfall/bulk_loader.rs:445-488): a decodable record goes into the
batch (flushed into the store at 500, counting it as imported); a decode
failure increments the failure counter and the record is skipped. -/
def importStep (acc : ImportAcc) (decodeOk : Bool) : ImportAcc :=
  if decodeOk then
    let b := acc.batchLen + 1
    if b ≥ 500 then { acc with imported := acc.imported + b, batchLen := 0 }
    else { acc with batchLen := b }
  else { acc with failed := acc.failed + 1 }

/-- The import loop over the decoded JSON array, where each record is
abstracted to whether `Card::from_scryfall_json` succeeds on it. -/
def runImport (decodes : List Bool) : ImportAcc :=
  decodes.foldl importStep ⟨0, 0, 0⟩

/-- Embedding of the import phase of `BulkLoader::download_and_import`
(src/scryfall/bulk_loader.rs:429-524), with store batch inserts assumed
to succeed: an empty JSON array is an error; then the loop runs, the
final partial batch is flushed, and the load fails when fewer than 1000
cards were imported.  The `failed > total/10` condition only emits a
warning and does not change the result. -/
def downloadAndImport (decodes : List Bool) : Except String Nat :=
  if decodes.length = 0 then
    .error "Bulk data JSON array is empty"
  else
    let acc := runImport decodes
    let imported := acc.imported + acc.batchLen
    if imported < 1000 then .error "Import verification failed"
    else .ok imported

/-- Number of records whose decode succeeds. -/
def countOk (decodes : List Bool) : Nat := (decodes.filter id).length

/-- Number of records whose decode fails. -/
def countFail (decodes : List Bool) : Nat := (decodes.filter (fun b => !b)).length

/-! ## Cards, pagination and result ordering
(src/query/executor.rs, src/api/handlers.rs) -/

/-- Projection of the `Card` model (src/models/card.rs) onto the two
fields the verified properties read: the primary key `id` and the
`name` column the executor sorts by. -/
structure CardRow where
  id : Nat
  name : String
deriving DecidableEq, Repr

/-- The page SQL built by `QueryExecutor::execute_paginated`
(src/query/executor.rs:113-116): the ORDER BY clause names the single
column `name`; no id tie-break column is appended. -/
def paginatedSql (whereClause : String) (pageSize offset : Nat) : String :=
  "SELECT * FROM cards WHERE " ++ whereClause ++ " ORDER BY name LIMIT " ++
    toString pageSize ++ " OFFSET " ++ toString offset

/-- The column list of the ORDER BY clause in the SQL of
`execute_paginated` (src/query/executor.rs:114): `name` only. -/
def orderByColumns : List String := ["name"]

/-- Lexicographic less-or-equal on character lists: the total order a
SQL engine applies to text columns in `ORDER BY`. -/
def charListLe : List Char → List Char → Bool
  | [], _ => true
  | _ :: _, [] => false
  | a :: as, b :: bs =>
      if a < b then true
      else if b < a then false
      else charListLe as bs

/-- The `name`-column comparison of the executed `ORDER BY name`. -/
def nameLe (a b : CardRow) : Prop := charListLe a.name.toList b.name.toList = true

instance (a b : CardRow) : Decidable (nameLe a b) := by
  unfold nameLe; infer_instance

/-- Strict version of `nameLe`: smaller name, i.e. `nameLe` and the
names differ. -/
def nameLt (a b : CardRow) : Prop := nameLe a b ∧ a.name ≠ b.name

/-- The ordering the executed `ORDER BY name` asks of the engine: an
output list is a permitted reply exactly when it is a permutation of the
matching rows that is non-decreasing in `name`.  Rows with equal names
are unconstrained, so the engine may return them in any order. -/
def permittedResult (rows out : List CardRow) : Prop :=
  rows.Perm out ∧ out.Pairwise nameLe

instance (rows out : List CardRow) : Decidable (permittedResult rows out) := by
  unfold permittedResult; infer_instance

/-- The ordering the claim asserts: name ascending with ties broken by
id. -/
def nameIdSorted (out : List CardRow) : Prop :=
  out.Pairwise (fun a b => nameLt a b ∨ (a.name = b.name ∧ a.id ≤ b.id))

instance (out : List CardRow) : Decidable (nameIdSorted out) := by
  unfold nameIdSorted nameLt; infer_instance

/-- Model of `QueryExecutor::execute_paginated`
(src/query/executor.rs:84-142) over the engine-ordered result list
`rows` of the WHERE predicate: the COUNT(*) query yields `rows.length`,
and the `LIMIT page_size OFFSET (page-1)*page_size` query yields the
corresponding slice (`page.saturating_sub(1)` is Nat subtraction). -/
def executePaginated (rows : List CardRow) (page pageSize : Nat) :
    List CardRow × Nat :=
  ((rows.drop ((page - 1) * pageSize)).take pageSize, rows.length)

/-- `params.page.unwrap_or(1).max(1)` (src/api/handlers.rs:468). -/
def resolvePage (page : Option Nat) : Nat := max (page.getD 1) 1

/-- `params.page_size.unwrap_or(100).min(1000).max(1)`
(src/api/handlers.rs:469). -/
def resolvePageSize (pageSize : Option Nat) : Nat :=
  max (min (pageSize.getD 100) 1000) 1

/-- Rust `usize::div_ceil` as used for `total.div_ceil(page_size)`
(src/api/handlers.rs:478). -/
def divCeil (a b : Nat) : Nat :=
  if a % b > 0 then a / b + 1 else a / b

/-- `total_pages` computed by the handler (src/api/handlers.rs:478). -/
def totalPages (total pageSize : Nat) : Nat := divCeil total pageSize

/-- `has_more = page < total_pages` (src/api/handlers.rs:479). -/
def hasMore (page total pageSize : Nat) : Bool :=
  page < totalPages total pageSize

/-- Concatenation of the pages `1..n` produced by `execute_paginated`. -/
def pagesJoin (rows : List CardRow) (pageSize n : Nat) : List CardRow :=
  ((List.range n).map (fun i => (executePaginated rows (i + 1) pageSize).1)).flatten

/-! ## Cache manager read path (src/cache/manager.rs) -/

/-- The environment `CacheManager::search` runs against, for one fixed
query: the outcome of each collaborator call it can make.
`redis = none` models a disabled distributed tier; `redis = some none`
a Redis miss or Redis error (the code treats both alike at
src/cache/manager.rs:58); `redis = some (some ids)` a Redis hit.
`getCardsByIds` is the store's id-dereference, a function of the id
list; `dbQueryCache` the durable `get_query_cache` lookup (ids and TTL);
`executeQuery` the translated predicate executed against the store;
`scryfallSearch` the upstream search; `insertBatch` the store upsert of
upstream results.  Cache writes are best-effort (`.ok()`-ignored in the
source) and are not modelled. -/
structure SearchEnv where
  redis : Option (Option (List Nat))
  getCardsByIds : List Nat → Except Unit (List CardRow)
  dbQueryCache : Except Unit (Option (List Nat × Int))
  executeQuery : Except Unit (List CardRow)
  scryfallSearch : Except Unit (List CardRow)
  insertBatch : Except Unit Unit

/-- Which tier produced the cards a successful search returns. -/
inductive SearchSource where
  | redisCache
  | dbCache
  | store
  | upstream
deriving DecidableEq, Repr

/-- Steps 3-4 fallback of `CacheManager::search`
(src/cache/manager.rs:139-219): the upstream search runs; a non-empty
result is upserted into the store (a failing upsert fails the request,
the `?` at line 153/191); the upstream result, empty or not, is
returned. -/
def upstreamPath (env : SearchEnv) : Except Unit (List CardRow × SearchSource) :=
  match env.scryfallSearch with
  | .error e => .error e
  | .ok cards =>
      if cards.isEmpty then .ok (cards, .upstream)
      else
        match env.insertBatch with
        | .error e => .error e
        | .ok _ => .ok (cards, .upstream)

/-- Step 3 of `CacheManager::search` (src/cache/manager.rs:113-219):
execute the translated predicate; on a non-empty success return it
(caching it as a side effect); on empty success or error fall back to
the upstream search. -/
def storePath (env : SearchEnv) : Except Unit (List CardRow × SearchSource) :=
  match env.executeQuery with
  | .ok cards => if cards.isEmpty then upstreamPath env else .ok (cards, .store)
  | .error _ => upstreamPath env

/-- Step 2 of `CacheManager::search` (src/cache/manager.rs:78-111): the
durable query-cache lookup.  A store error in the lookup itself
propagates (the `?` at line 80); a hit is dereferenced with
`get_cards_by_ids`, and only a non-empty dereference is returned —
an empty or failed dereference falls through to step 3. -/
def dbCachePath (env : SearchEnv) : Except Unit (List CardRow × SearchSource) :=
  match env.dbQueryCache with
  | .error e => .error e
  | .ok (some entry) =>
      match env.getCardsByIds entry.1 with
      | .ok cards => if cards.isEmpty then storePath env else .ok (cards, .dbCache)
      | .error _ => storePath env
  | .ok none => storePath env

/-- Embedding of `CacheManager::search` (src/cache/manager.rs:53-220):
step 1 is the distributed tier; a hit is dereferenced and only a
non-empty dereference is returned, anything else falls through to the
durable tier (step 2), the store predicate (step 3) and the upstream
search (step 4). -/
def cacheSearch (env : SearchEnv) : Except Unit (List CardRow × SearchSource) :=
  match env.redis with
  | some (some ids) =>
      match env.getCardsByIds ids with
      | .ok cards => if cards.isEmpty then dbCachePath env else .ok (cards, .redisCache)
      | .error _ => dbCachePath env
  | _ => dbCachePath env

/-! ## Circuit breaker (src/circuit_breaker/) -/

/-- Embedding of `CircuitState` (src/circuit_breaker/state.rs:3-8).
`Open` is spelled `opened` (`open` is a Lean keyword). -/
inductive CircuitState where
  | closed
  | opened
  | halfOpen
deriving DecidableEq, Repr

/-- Embedding of `CircuitStateData` (src/circuit_breaker/state.rs:20-27),
with instants as natural-number timestamps. -/
structure CircuitStateData where
  state : CircuitState
  failureCount : Nat
  successCount : Nat
  lastFailureTime : Option Nat
  halfOpenAttempts : Nat
deriving DecidableEq, Repr

/-- `CircuitStateData::new` (src/circuit_breaker/state.rs:30-38). -/
def CircuitStateData.new : CircuitStateData :=
  { state := .closed, failureCount := 0, successCount := 0,
    lastFailureTime := none, halfOpenAttempts := 0 }

/-- `CircuitStateData::reset` (src/circuit_breaker/state.rs:40-44):
clears the three counters, leaves state and last failure time alone. -/
def CircuitStateData.reset (s : CircuitStateData) : CircuitStateData :=
  { s with failureCount := 0, successCount := 0, halfOpenAttempts := 0 }

/-- Embedding of `CircuitBreakerConfig` (src/circuit_breaker/mod.rs:11-17),
timeout in the same time unit as the timestamps. -/
structure CircuitBreakerConfig where
  failureThreshold : Nat
  successThreshold : Nat
  timeout : Nat
  halfOpenMaxRequests : Nat

/-- `CircuitStateData::should_attempt_reset`
(src/circuit_breaker/state.rs:46-56): only in the Open state, and only
when at least `timeout` has elapsed since the last failure. -/
def shouldAttemptReset (s : CircuitStateData) (timeout now : Nat) : Bool :=
  if s.state ≠ .opened then false
  else
    match s.lastFailureTime with
    | some t => now - t ≥ timeout
    | none => false

/-- Embedding of `CircuitBreaker::state`
(src/circuit_breaker/mod.rs:80-91): performs the Open→HalfOpen
transition (with counter reset) when the timeout has elapsed, and
returns the current state. -/
def stateCheck (cfg : CircuitBreakerConfig) (s : CircuitStateData) (now : Nat) :
    CircuitState × CircuitStateData :=
  if shouldAttemptReset s cfg.timeout now then
    (.halfOpen, CircuitStateData.reset { s with state := .halfOpen })
  else (s.state, s)

/-- Embedding of `CircuitBreaker::on_success`
(src/circuit_breaker/mod.rs:135-156). -/
def onSuccess (cfg : CircuitBreakerConfig) (s : CircuitStateData) :
    CircuitStateData :=
  match s.state with
  | .closed => { s with failureCount := 0 }
  | .halfOpen =>
      let s1 := { s with successCount := s.successCount + 1 }
      if s1.successCount ≥ cfg.successThreshold then
        CircuitStateData.reset { s1 with state := .closed }
      else s1
  | .opened => CircuitStateData.reset s

/-- Embedding of `CircuitBreaker::on_failure`
(src/circuit_breaker/mod.rs:158-183). -/
def onFailure (cfg : CircuitBreakerConfig) (s : CircuitStateData) (now : Nat) :
    CircuitStateData :=
  let s1 := { s with failureCount := s.failureCount + 1, lastFailureTime := some now }
  match s1.state with
  | .closed =>
      if s1.failureCount ≥ cfg.failureThreshold then { s1 with state := .opened }
      else s1
  | .halfOpen => CircuitStateData.reset { s1 with state := .opened }
  | .opened => s1

/-- The result of one `CircuitBreaker::call`. -/
inductive CallResult where
  | ok
  | circuitOpen
  | innerErr
deriving DecidableEq, Repr

/-- Embedding of `CircuitBreaker::execute`
(src/circuit_breaker/mod.rs:119-133): the wrapped operation runs, and
its outcome (`succeeds`) is recorded. -/
def executeCall (cfg : CircuitBreakerConfig) (s : CircuitStateData) (now : Nat)
    (succeeds : Bool) : CallResult × CircuitStateData :=
  if succeeds then (.ok, onSuccess cfg s) else (.innerErr, onFailure cfg s now)

/-- Embedding of `CircuitBreaker::call` (src/circuit_breaker/mod.rs:93-117):
check (and possibly transition) the state; Open short-circuits with
`CircuitBreakerError::Open` and does not run the operation; HalfOpen
admits up to `half_open_max_requests` probes; Closed always runs the
operation. -/
def callCB (cfg : CircuitBreakerConfig) (s : CircuitStateData) (now : Nat)
    (succeeds : Bool) : CallResult × CircuitStateData :=
  let r := stateCheck cfg s now
  match r.1 with
  | .opened => (.circuitOpen, r.2)
  | .halfOpen =>
      if r.2.halfOpenAttempts ≥ cfg.halfOpenMaxRequests then (.circuitOpen, r.2)
      else
        executeCall cfg { r.2 with halfOpenAttempts := r.2.halfOpenAttempts + 1 }
          now succeeds
  | .closed => executeCall cfg r.2 now succeeds

/-- Run a sequence of calls, each given as (time, whether the wrapped
operation would succeed), returning the final breaker state. -/
def callSeq (cfg : CircuitBreakerConfig) (s : CircuitStateData)
    (events : List (Nat × Bool)) : CircuitStateData :=
  events.foldl (fun st e => (callCB cfg st e.1 e.2).2) s

/-- The breaker state reached from a fresh breaker after
`failure_threshold` consecutive failures, the last at time `tlast`:
Open, with the failure counter at the threshold and the last failure
time stamped. -/
def openedAt (cfg : CircuitBreakerConfig) (tlast : Nat) : CircuitStateData :=
  { state := .opened, failureCount := cfg.failureThreshold, successCount := 0,
    lastFailureTime := some tlast, halfOpenAttempts := 0 }

/-! ## Claims C1 and C2 -/

/-- C1 counterexample: the claim fails on the code.  At the concrete query
token `mana:3`, parsing yields a filter whose field is `mana`, not the
canonical `cmc` the claim requires; and at token `id:w` the field is
normalized to `color_identity`, which does NOT pass the validator's
allowed-field check. -/
theorem c1_alias_normalization_counterexample :
    (parseFilterToken "mana:3").field = "mana" ∧
    (parseFilterToken "mana:3").field ≠ "cmc" ∧
    (parseFilterToken "id:w").field = "color_identity" ∧
    fieldAllowed "color_identity" = false := by
  refine ⟨by decide, by decide, by decide, by decide⟩

/-- C1 (amended): of the aliases the spec lists, `c`, `t`, `o`, `s`, `r`,
`pow`, `tou`, `loy` are normalized to `color`, `type`, `oracle`, `set`,
`rarity`, `power`, `toughness`, `loyalty`, each of which passes the
validator's allowed-field check; `id` and `identity` are normalized to
`color_identity`, which fails the allowed-field check; and `type_line`,
`oracle_text` and `mana` are not normalized at all (they stay as
themselves), of which only `mana` is in the allowed set (`type_line` and
`oracle_text` are rejected). -/
theorem c1_alias_normalization :
    (normalizeField "c" = "color" ∧ fieldAllowed "color" = true) ∧
    (normalizeField "id" = "color_identity" ∧
      normalizeField "identity" = "color_identity" ∧
      fieldAllowed "color_identity" = false) ∧
    (normalizeField "t" = "type" ∧ fieldAllowed "type" = true) ∧
    (normalizeField "type_line" = "type_line" ∧ fieldAllowed "type_line" = false) ∧
    (normalizeField "o" = "oracle" ∧ fieldAllowed "oracle" = true) ∧
    (normalizeField "oracle_text" = "oracle_text" ∧
      fieldAllowed "oracle_text" = false) ∧
    (normalizeField "s" = "set" ∧ fieldAllowed "set" = true) ∧
    (normalizeField "r" = "rarity" ∧ fieldAllowed "rarity" = true) ∧
    (normalizeField "pow" = "power" ∧ fieldAllowed "power" = true) ∧
    (normalizeField "tou" = "toughness" ∧ fieldAllowed "toughness" = true) ∧
    (normalizeField "loy" = "loyalty" ∧ fieldAllowed "loyalty" = true) ∧
    (normalizeField "mana" = "mana" ∧ fieldAllowed "mana" = true) ∧
    (parseFilterToken "c:red").field = "color" ∧
    (parseFilterToken "pow:3").field = "power" := by
  decide

/-- C2 counterexample: the claim fails on the code.  For the query
`((((`, the `search_cards` handler rejects in `validate_query_string`
(unbalanced parentheses) and responds with
`ErrorResponse::validation_error`, i.e. error code `VALIDATION_ERROR`,
which is a different error code than the claimed `INVALID_QUERY`. -/
theorem c2_unbalanced_parens_counterexample :
    searchCardsEarlyReject 1000 "((((" = some ErrorCode.validationError ∧
    ErrorCode.validationError ≠ ErrorCode.invalidQuery := by
  refine ⟨by decide, by decide⟩

/-- C2 (amended): for the input query `((((` (unbalanced parentheses),
`GET /cards/search` returns HTTP status 400, but with error code
`VALIDATION_ERROR` in the error envelope: the unbalanced-parenthesis
check runs in the pre-parse validator, whose rejections the handler maps
to `VALIDATION_ERROR`; `INVALID_QUERY` is reserved for parse errors. -/
theorem c2_unbalanced_parens_validation_error :
    searchCardsEarlyReject 1000 "((((" = some ErrorCode.validationError ∧
    ErrorCode.validationError.statusCode = 400 ∧
    ErrorCode.validationError.codeString = "VALIDATION_ERROR" := by
  refine ⟨by decide, rfl, rfl⟩

/-! ## Claim C8: parameter lists compose -/

theorem buildFilterClause_params_append (f : Filter) (ps : List String) :
    (buildFilterClause f ps).2 = ps ++ (buildFilterClause f []).2 := by
  unfold buildFilterClause buildColorClause buildColorIdentityClause
  split <;> try simp
  all_goals (split <;> [simp; (split <;> simp)])

mutual

theorem buildInner_params_append : ∀ (n : QueryNode) (ps : List String),
    (buildWhereClauseInner n ps).2 = ps ++ (buildWhereClauseInner n []).2
  | .and nodes, ps => by
      simp only [buildWhereClauseInner]
      rw [buildList_params_append nodes ps]
  | .or nodes, ps => by
      simp only [buildWhereClauseInner]
      rw [buildList_params_append nodes ps]
  | .not inner, ps => by
      simp only [buildWhereClauseInner]
      exact buildInner_params_append inner ps
  | .filter f, ps => by
      simp only [buildWhereClauseInner]
      exact buildFilterClause_params_append f ps

theorem buildList_params_append : ∀ (ns : List QueryNode) (ps : List String),
    (buildClauseList ns ps).2 = ps ++ (buildClauseList ns []).2
  | [], ps => by simp [buildClauseList]
  | n :: rest, ps => by
      simp only [buildClauseList]
      rw [buildList_params_append rest (buildWhereClauseInner n ps).2,
        buildList_params_append rest (buildWhereClauseInner n []).2,
        buildInner_params_append n ps]
      simp

end

/-- C8: translating `And([A, B])` produces exactly the parameter list of
`A` followed by the parameter list of `B` (the placeholder numbers in
the clause strings are shifted by position, but the parameter values are
position-independent), and wrapping a node in `Not` leaves the parameter
list unchanged. -/
theorem c8_translate_params_compose (a b : QueryNode) :
    (buildWhereClause (QueryNode.and [a, b])).2 =
      (buildWhereClause a).2 ++ (buildWhereClause b).2 ∧
    (∀ (n : QueryNode) (ps : List String),
      (buildWhereClauseInner (QueryNode.not n) ps).2 =
        (buildWhereClauseInner n ps).2) := by
  constructor
  · simp only [buildWhereClause, buildWhereClauseInner, buildClauseList]
    rw [buildInner_params_append b (buildWhereClauseInner a []).2]
  · intro n ps
    simp [buildWhereClauseInner]

/-! ## Claim C9: should_load -/

/-- C9: `should_load()` returns true when the store contains no cards;
otherwise, with a recorded import timestamp not in the future, it
returns true exactly when the elapsed time since that timestamp is at
least `cache_ttl_hours` hours, and returns false when cards exist but
no import timestamp is recorded. -/
theorem c9_should_load (t now : Int) (h : 0 ≤ now - t) (ttlHours : Nat) :
    (∀ li, shouldLoad (.ok false) li now ttlHours = .ok true) ∧
    (shouldLoad (.ok true) (.ok (some t)) now ttlHours = .ok true ↔
      (ttlHours : Int) * 3600 ≤ now - t) ∧
    shouldLoad (.ok true) (.ok none) now ttlHours = .ok false := by
  obtain ⟨m, hm⟩ := Int.eq_ofNat_of_zero_le h
  refine ⟨fun li => rfl, ?_, rfl⟩
  have hrun : shouldLoad (.ok true) (.ok (some t)) now ttlHours
      = if (ttlHours : Int) ≤ numHours (now - t) then .ok true else .ok false := by
    simp only [shouldLoad, bind, Except.bind, pure, Except.pure, Bool.not_true,
      Bool.false_eq_true, if_false, ge_iff_le]
  have hdiv : numHours (now - t) = ((m / 3600 : Nat) : Int) := by
    rw [hm]; rfl
  have hiff : ((ttlHours : Int) ≤ numHours (now - t)) ↔
      (ttlHours : Int) * 3600 ≤ now - t := by
    rw [hdiv, hm]
    omega
  rw [hrun]
  by_cases hc : (ttlHours : Int) ≤ numHours (now - t)
  · simp only [hc, if_true]
    exact ⟨fun _ => hiff.mp hc, fun _ => by trivial⟩
  · simp only [hc, if_false]
    constructor
    · intro heq; simp at heq
    · intro hcontra; exact absurd (hiff.mpr hcontra) hc

/-! ## Claim C7: bulk-load failure tolerance -/

theorem importLoop_counts (decodes : List Bool) (acc : ImportAcc) :
    (decodes.foldl importStep acc).imported + (decodes.foldl importStep acc).batchLen
      = acc.imported + acc.batchLen + countOk decodes ∧
    (decodes.foldl importStep acc).failed = acc.failed + countFail decodes := by
  induction decodes generalizing acc with
  | nil => simp [countOk, countFail]
  | cons b rest ih =>
      rcases ih (importStep acc b) with ⟨h1, h2⟩
      cases b with
      | false =>
          refine ⟨?_, ?_⟩
          · rw [List.foldl_cons, h1]
            simp [importStep, countOk, countFail]
          · rw [List.foldl_cons, h2]
            simp [importStep, countOk, countFail]
            omega
      | true =>
          refine ⟨?_, ?_⟩
          · rw [List.foldl_cons, h1]
            by_cases hb : acc.batchLen + 1 ≥ 500 <;>
              simp [importStep, hb, countOk, countFail] <;> omega
          · rw [List.foldl_cons, h2]
            by_cases hb : acc.batchLen + 1 ≥ 500 <;>
              simp [importStep, hb, countOk, countFail]

theorem runImport_imported (decodes : List Bool) :
    (runImport decodes).imported + (runImport decodes).batchLen = countOk decodes := by
  simpa using (importLoop_counts decodes ⟨0, 0, 0⟩).1

theorem runImport_failed (decodes : List Bool) :
    (runImport decodes).failed = countFail decodes := by
  simpa using (importLoop_counts decodes ⟨0, 0, 0⟩).2

/-- C7: during bulk load a per-record decode failure never fails the
load — it is counted (the final failure counter equals the number of
records that fail to decode) and the record skipped; the whole load
fails exactly when fewer than 1000 cards were successfully imported; and
when failures exceed 10% of the total record count the load still
succeeds (the high-failure-rate branch only logs a warning), provided at
least 1000 records imported. -/
theorem c7_bulk_load_failure_tolerance (decodes : List Bool) :
    (downloadAndImport decodes = .ok (countOk decodes) ↔ 1000 ≤ countOk decodes) ∧
    (countOk decodes < 1000 → (downloadAndImport decodes).isOk = false) ∧
    (1000 ≤ countOk decodes → decodes.length / 10 < countFail decodes →
      downloadAndImport decodes = .ok (countOk decodes)) ∧
    (runImport decodes).failed = countFail decodes := by
  have himp := runImport_imported decodes
  have hlen : countOk decodes ≤ decodes.length := List.length_filter_le _ _
  have heq : downloadAndImport decodes =
      if decodes.length = 0 then Except.error "Bulk data JSON array is empty"
      else if countOk decodes < 1000 then Except.error "Import verification failed"
      else Except.ok (countOk decodes) := by
    simp only [downloadAndImport, himp]
  have hiff : downloadAndImport decodes = .ok (countOk decodes) ↔
      1000 ≤ countOk decodes := by
    rw [heq]
    constructor
    · intro hok
      by_cases h0 : decodes.length = 0
      · rw [if_pos h0] at hok; simp at hok
      · rw [if_neg h0] at hok
        by_cases h1 : countOk decodes < 1000
        · rw [if_pos h1] at hok; simp at hok
        · omega
    · intro hge
      have h0 : ¬ decodes.length = 0 := by omega
      have h1 : ¬ countOk decodes < 1000 := by omega
      rw [if_neg h0, if_neg h1]
  refine ⟨hiff, ?_, fun hge _ => hiff.mpr hge, runImport_failed decodes⟩
  intro hlt
  rw [heq]
  by_cases h0 : decodes.length = 0
  · rw [if_pos h0]; rfl
  · rw [if_neg h0, if_pos hlt]; rfl

/-- C7 witness: 1000 decodable records followed by 200 undecodable ones
(a failure rate above 10%) import successfully. -/
theorem c7_bulk_load_witness :
    1000 ≤ countOk (List.replicate 1000 true ++ List.replicate 200 false) ∧
    (List.replicate 1000 true ++ List.replicate 200 false).length / 10 <
      countFail (List.replicate 1000 true ++ List.replicate 200 false) ∧
    downloadAndImport (List.replicate 1000 true ++ List.replicate 200 false) =
      .ok (countOk (List.replicate 1000 true ++ List.replicate 200 false)) := by
  have h1 : 1000 ≤ countOk (List.replicate 1000 true ++ List.replicate 200 false) := by
    simp [countOk, List.filter_append, List.filter_replicate]
  have h2 : (List.replicate 1000 true ++ List.replicate 200 false).length / 10 <
      countFail (List.replicate 1000 true ++ List.replicate 200 false) := by
    simp [countFail, List.filter_append, List.filter_replicate]
  exact ⟨h1, h2,
    (c7_bulk_load_failure_tolerance
      (List.replicate 1000 true ++ List.replicate 200 false)).2.2.1 h1 h2⟩

/-- C9 witness: with cards present, a last import 2 hours back and a TTL
of 2 hours, `should_load` reports a reload; with no cards it always
does; with cards but no metadata it does not. -/
theorem c9_should_load_witness :
    (∀ li, shouldLoad (.ok false) li 7200 2 = .ok true) ∧
    (shouldLoad (.ok true) (.ok (some 0)) 7200 2 = .ok true ↔
      (2 : Int) * 3600 ≤ 7200 - 0) ∧
    shouldLoad (.ok true) (.ok none) 7200 2 = .ok false :=
  c9_should_load 0 7200 (by decide) 2

/-! ## Claim C6: pagination -/

theorem divCeil_mul_bounds (a b : Nat) (hb : 0 < b) :
    a ≤ divCeil a b * b ∧ divCeil a b * b < a + b := by
  have h4 : a / b * b + a % b = a := Nat.div_add_mod' a b
  have hm : a % b < b := Nat.mod_lt _ hb
  unfold divCeil
  by_cases h : a % b > 0
  · rw [if_pos h, Nat.succ_mul]
    omega
  · rw [if_neg h]
    omega

theorem pagesJoin_eq (pageSize : Nat) :
    ∀ (n : Nat) (rows : List CardRow), rows.length ≤ n * pageSize →
      pagesJoin rows pageSize n = rows := by
  intro n
  induction n with
  | zero =>
      intro rows h
      simp only [Nat.zero_mul, Nat.le_zero] at h
      simp [pagesJoin, List.length_eq_zero.mp h]
  | succ k ih =>
      intro rows h
      have htail : (rows.drop pageSize).length ≤ k * pageSize := by
        rw [List.length_drop]
        rw [Nat.succ_mul] at h
        omega
      have ihk := ih (rows.drop pageSize) htail
      unfold pagesJoin at ihk ⊢
      rw [List.range_succ_eq_map]
      simp only [List.map_cons, List.map_map, List.flatten_cons]
      have hfun : ((fun i => (executePaginated rows (i + 1) pageSize).1) ∘ Nat.succ)
          = (fun i => (executePaginated (rows.drop pageSize) (i + 1) pageSize).1) := by
        funext i
        show (executePaginated rows (i.succ + 1) pageSize).1
          = (executePaginated (rows.drop pageSize) (i + 1) pageSize).1
        simp only [executePaginated, Nat.succ_eq_add_one, Nat.add_sub_cancel,
          List.drop_drop]
        rw [Nat.succ_mul, Nat.add_comm (i * pageSize) pageSize]
      rw [hfun, ihk]
      have hfirst : (executePaginated rows (0 + 1) pageSize).1 = rows.take pageSize := by
        simp [executePaginated]
      rw [hfirst, List.take_append_drop]

theorem charListLe_antisymm :
    ∀ x y : List Char, charListLe x y = true → charListLe y x = true → x = y
  | [], [] => fun _ _ => rfl
  | [], _ :: _ => fun _ h2 => by simp [charListLe] at h2
  | _ :: _, [] => fun h1 _ => by simp [charListLe] at h1
  | a :: as, b :: bs => fun h1 h2 => by
      by_cases hab : a < b
      · have hba : ¬ b < a := fun hba => absurd (lt_trans hab hba) (lt_irrefl _)
        simp [charListLe, hba, hab] at h2
      · by_cases hba : b < a
        · simp [charListLe, hab, hba] at h1
        · have habeq : a = b := le_antisymm (not_lt.mp hba) (not_lt.mp hab)
          subst habeq
          simp only [charListLe, lt_irrefl, if_false] at h1 h2
          rw [charListLe_antisymm as bs h1 h2]

theorem nameLt_antisymm (a b : CardRow) (hab : nameLt a b) (hba : nameLt b a) :
    a = b := by
  have := charListLe_antisymm a.name.toList b.name.toList hab.1 hba.1
  have hnames : a.name = b.name := by
    apply String.ext
    exact this
  exact absurd hnames hab.2

/-- When the matching rows have pairwise-distinct names, the engine's
`ORDER BY name` reply is uniquely determined: any two permitted replies
coincide. -/
theorem permittedResult_unique (rows out out2 : List CardRow)
    (h : permittedResult rows out) (h2 : permittedResult rows out2)
    (hnames : rows.Pairwise (fun a b => a.name ≠ b.name)) :
    out = out2 := by
  have hne : out.Pairwise (fun a b => a.name ≠ b.name) :=
    (List.Perm.pairwise_iff (fun hxy => Ne.symm hxy) h.1).mp hnames
  have hne2 : out2.Pairwise (fun a b => a.name ≠ b.name) :=
    (List.Perm.pairwise_iff (fun hxy => Ne.symm hxy) h2.1).mp hnames
  have hlt : out.Pairwise nameLt :=
    (h.2.and hne).imp (fun hab => ⟨hab.1, hab.2⟩)
  have hlt2 : out2.Pairwise nameLt :=
    (h2.2.and hne2).imp (fun hab => ⟨hab.1, hab.2⟩)
  have hperm : out.Perm out2 := h.1.symm.trans h2.1
  haveI : IsAntisymm CardRow nameLt := ⟨nameLt_antisymm⟩
  exact List.eq_of_perm_of_sorted hperm hlt hlt2

/-- C6 counterexample: the round-trip part of the claim fails on the
code.  Each page request in `execute_paginated` runs its own
`ORDER BY name` query (src/query/executor.rs:113-116, no id tie-break),
so two page requests need not agree on the order of rows sharing a
name.  For the two rows named `"A"` (ids 0 and 1) with `page_size = 1`,
both orderings are permitted engine replies; serving page 1 from one
and page 2 from the other concatenates to `[⟨1,"A"⟩, ⟨1,"A"⟩]`, which
duplicates id 1, drops id 0, and is not a permutation of the result set
— so it reproduces no full ordered result list. -/
theorem c6_pagination_counterexample :
    permittedResult [⟨0, "A"⟩, ⟨1, "A"⟩] [⟨1, "A"⟩, ⟨0, "A"⟩] ∧
    permittedResult [⟨0, "A"⟩, ⟨1, "A"⟩] [⟨0, "A"⟩, ⟨1, "A"⟩] ∧
    totalPages 2 1 = 2 ∧
    (executePaginated [⟨1, "A"⟩, ⟨0, "A"⟩] 1 1).1 ++
      (executePaginated [⟨0, "A"⟩, ⟨1, "A"⟩] 2 1).1 = [⟨1, "A"⟩, ⟨1, "A"⟩] ∧
    ¬ ([⟨0, "A"⟩, ⟨1, "A"⟩] : List CardRow).Perm [⟨1, "A"⟩, ⟨1, "A"⟩] := by
  decide

/-- C6 (amended): the handler defaults `page` to 1 and forces it to be
at least 1, defaults `page_size` to 100 and clamps it into `[1, 1000]`;
the total reported by `execute_paginated` is the full match count;
`total_pages` is the ceiling of `total / page_size` (characterized by
the two inequalities); and `has_more` holds exactly when
`page < total_pages` — all as claimed.  The pagination round-trip,
however, holds only when every page is served from one and the same
engine ordering (the `pagesJoin` conjunct); since each page request is
an independent `ORDER BY name` query, the round-trip over per-page
orderings is guaranteed only when the matching rows have
pairwise-distinct names, in which case the permitted ordering is unique
and concatenating pages `1..total_pages` reproduces it (the final
conjunct).  With tied names it can duplicate and drop rows (see the
counterexample). -/
theorem c6_pagination_contract_amended (pOpt sOpt : Option Nat)
    (rows : List CardRow) (p t : Nat) :
    resolvePage none = 1 ∧
    1 ≤ resolvePage pOpt ∧
    resolvePageSize none = 100 ∧
    1 ≤ resolvePageSize sOpt ∧ resolvePageSize sOpt ≤ 1000 ∧
    (executePaginated rows (resolvePage pOpt) (resolvePageSize sOpt)).2 =
      rows.length ∧
    (t ≤ totalPages t (resolvePageSize sOpt) * resolvePageSize sOpt ∧
      totalPages t (resolvePageSize sOpt) * resolvePageSize sOpt <
        t + resolvePageSize sOpt) ∧
    (hasMore p t (resolvePageSize sOpt) = true ↔
      p < totalPages t (resolvePageSize sOpt)) ∧
    pagesJoin rows (resolvePageSize sOpt)
      (totalPages rows.length (resolvePageSize sOpt)) = rows ∧
    (∀ ords : Nat → List CardRow,
      (∀ pg, permittedResult rows (ords pg)) →
      rows.Pairwise (fun a b => a.name ≠ b.name) →
      ((List.range (totalPages rows.length (resolvePageSize sOpt))).map
        (fun i => (executePaginated (ords (i + 1)) (i + 1)
          (resolvePageSize sOpt)).1)).flatten = ords 1) := by
  have hs : 0 < resolvePageSize sOpt := by
    unfold resolvePageSize
    omega
  have hbounds := divCeil_mul_bounds t (resolvePageSize sOpt) hs
  have hjoin : pagesJoin rows (resolvePageSize sOpt)
      (totalPages rows.length (resolvePageSize sOpt)) = rows := by
    apply pagesJoin_eq
    exact (divCeil_mul_bounds rows.length (resolvePageSize sOpt) hs).1
  refine ⟨rfl, ?_, rfl, hs, ?_, rfl, hbounds, ?_, hjoin, ?_⟩
  · unfold resolvePage
    omega
  · unfold resolvePageSize
    omega
  · simp [hasMore]
  · intro ords hp hnames
    have hall : ∀ pg, ords pg = ords 1 := fun pg =>
      permittedResult_unique rows (ords pg) (ords 1) (hp pg) (hp 1) hnames
    have hmap : (List.range (totalPages rows.length (resolvePageSize sOpt))).map
        (fun i => (executePaginated (ords (i + 1)) (i + 1)
          (resolvePageSize sOpt)).1)
        = (List.range (totalPages rows.length (resolvePageSize sOpt))).map
          (fun i => (executePaginated (ords 1) (i + 1)
            (resolvePageSize sOpt)).1) := by
      apply List.map_congr_left
      intro i _
      rw [hall (i + 1)]
    rw [hmap]
    have hlen1 : (ords 1).length = rows.length := (hp 1).1.length_eq.symm
    show pagesJoin (ords 1) (resolvePageSize sOpt)
      (totalPages rows.length (resolvePageSize sOpt)) = ords 1
    apply pagesJoin_eq
    rw [hlen1]
    exact (divCeil_mul_bounds rows.length (resolvePageSize sOpt) hs).1

/-- C6 witness: with two distinctly named rows and `page_size = 1`, the
per-page concatenation over the (unique) permitted ordering reproduces
the full ordered list. -/
theorem c6_pagination_witness :
    ((List.range (totalPages
        ([⟨0, "A"⟩, ⟨1, "B"⟩] : List CardRow).length
        (resolvePageSize (some 1)))).map
      (fun i => (executePaginated ([⟨0, "A"⟩, ⟨1, "B"⟩] : List CardRow)
        (i + 1) (resolvePageSize (some 1))).1)).flatten
      = [⟨0, "A"⟩, ⟨1, "B"⟩] := by
  exact (c6_pagination_contract_amended (some 1) (some 1)
      [⟨0, "A"⟩, ⟨1, "B"⟩] 1 2).2.2.2.2.2.2.2.2.2
    (fun _ => [⟨0, "A"⟩, ⟨1, "B"⟩])
    (fun _ => show permittedResult [⟨0, "A"⟩, ⟨1, "B"⟩] [⟨0, "A"⟩, ⟨1, "B"⟩]
      by decide)
    (by decide)

/-! ## Claim C3: result ordering -/

/-- C3 counterexample: the claim fails on the code.  The page SQL of
`execute_paginated` orders by `name` only, so for two rows sharing the
name `"A"` with ids 0 and 1, both orders are permitted replies to the
executed `ORDER BY name`; the reply `[⟨1,"A"⟩, ⟨0,"A"⟩]` is not ordered
by name-then-id, and the two distinct permitted replies show paging is
not deterministic. -/
theorem c3_order_counterexample :
    permittedResult [⟨0, "A"⟩, ⟨1, "A"⟩] [⟨1, "A"⟩, ⟨0, "A"⟩] ∧
    ¬ nameIdSorted [⟨1, "A"⟩, ⟨0, "A"⟩] ∧
    permittedResult [⟨0, "A"⟩, ⟨1, "A"⟩] [⟨0, "A"⟩, ⟨1, "A"⟩] ∧
    ([⟨1, "A"⟩, ⟨0, "A"⟩] : List CardRow) ≠ [⟨0, "A"⟩, ⟨1, "A"⟩] := by
  decide

/-- C3 (amended): the page produced by `execute_paginated` is ordered by
`name` ascending only — no id tie-break is requested from the engine.
When the matching rows have pairwise-distinct names this still
determines the output uniquely (so paging is deterministic), but rows
sharing a name may be returned in either order. -/
theorem c3_order_by_name_only (rows out out2 : List CardRow)
    (h : permittedResult rows out) (h2 : permittedResult rows out2)
    (hnames : rows.Pairwise (fun a b => a.name ≠ b.name)) :
    out.Pairwise nameLe ∧ out = out2 :=
  ⟨h.2, permittedResult_unique rows out out2 h h2 hnames⟩

/-- C3 witness: on two rows with distinct names, the name-sorted reply
is unique. -/
theorem c3_order_witness :
    ([CardRow.mk 0 "A", CardRow.mk 1 "B"] : List CardRow).Pairwise nameLe ∧
    ([CardRow.mk 0 "A", CardRow.mk 1 "B"] : List CardRow) =
      [CardRow.mk 0 "A", CardRow.mk 1 "B"] :=
  c3_order_by_name_only [⟨0, "A"⟩, ⟨1, "B"⟩] [⟨0, "A"⟩, ⟨1, "B"⟩]
    [⟨0, "A"⟩, ⟨1, "B"⟩] (by decide) (by decide) (by decide)

/-! ## Claim C4: zero-card cache dereferences are misses -/

/-- C4: when every cached fingerprint entry (distributed tier and
durable result-set cache) dereferences to zero cards, `search` does not
answer from either cache tier: it behaves exactly as the store-predicate
step, and when the store execution is empty or fails it behaves exactly
as the upstream fallback.  The durable cache lookup itself is assumed to
succeed (a failing lookup propagates as a store error by the `?` at
src/cache/manager.rs:80). -/
theorem c4_empty_deref_is_miss (env : SearchEnv)
    (hq : ∃ q, env.dbQueryCache = .ok q)
    (hredis : ∀ ids, env.redis = some (some ids) → env.getCardsByIds ids = .ok [])
    (hdb : ∀ ids ttl, env.dbQueryCache = .ok (some (ids, ttl)) →
      env.getCardsByIds ids = .ok []) :
    cacheSearch env = storePath env ∧
    ((env.executeQuery = .ok [] ∨ env.executeQuery = .error ()) →
      storePath env = upstreamPath env) := by
  obtain ⟨q, hqe⟩ := hq
  have hdbpath : dbCachePath env = storePath env := by
    unfold dbCachePath
    rw [hqe]
    match q with
    | none => rfl
    | some (ids, ttl) => simp [hdb ids ttl hqe]
  constructor
  · unfold cacheSearch
    match hred : env.redis with
    | none => exact hdbpath
    | some none => exact hdbpath
    | some (some ids) => simp [hredis ids hred, hdbpath]
  · intro hex
    unfold storePath
    rcases hex with hex | hex <;> simp [hex]

/-- C4 witness: a concrete environment whose Redis entry and durable
cache entry both dereference to no cards, whose store execution is
empty, and whose upstream search has one card. -/
theorem c4_empty_deref_witness :
    let env : SearchEnv :=
      { redis := some (some [5]), getCardsByIds := fun _ => .ok [],
        dbQueryCache := .ok (some ([5], 24)), executeQuery := .ok [],
        scryfallSearch := .ok [⟨1, "Bolt"⟩], insertBatch := .ok () }
    cacheSearch env = storePath env ∧
    ((env.executeQuery = .ok [] ∨ env.executeQuery = .error ()) →
      storePath env = upstreamPath env) := by
  exact c4_empty_deref_is_miss _ ⟨some ([5], 24), rfl⟩ (fun _ _ => rfl)
    (fun _ _ _ => rfl)

/-! ## Claims C5 and C10: circuit breaker -/

theorem callCB_closed_fail_stay (cfg : CircuitBreakerConfig) (s : CircuitStateData)
    (now : Nat) (hs : s.state = .closed)
    (hth : ¬ s.failureCount + 1 ≥ cfg.failureThreshold) :
    callCB cfg s now false =
      (.innerErr,
        { s with failureCount := s.failureCount + 1, lastFailureTime := some now }) := by
  simp [callCB, stateCheck, shouldAttemptReset, executeCall, onFailure, hs, hth]

theorem callCB_closed_fail_open (cfg : CircuitBreakerConfig) (s : CircuitStateData)
    (now : Nat) (hs : s.state = .closed)
    (hth : s.failureCount + 1 ≥ cfg.failureThreshold) :
    callCB cfg s now false =
      (.innerErr,
        { s with state := .opened, failureCount := s.failureCount + 1,
                 lastFailureTime := some now }) := by
  simp [callCB, stateCheck, shouldAttemptReset, executeCall, onFailure, hs, hth]

theorem callCB_open_short (cfg : CircuitBreakerConfig) (s : CircuitStateData)
    (now : Nat) (b : Bool) (hs : s.state = .opened)
    (hnr : shouldAttemptReset s cfg.timeout now = false) :
    callCB cfg s now b = (.circuitOpen, s) := by
  simp [callCB, stateCheck, hnr, hs]

theorem callCB_halfOpen_full (cfg : CircuitBreakerConfig) (s : CircuitStateData)
    (now : Nat) (b : Bool) (hs : s.state = .halfOpen)
    (hfull : s.halfOpenAttempts ≥ cfg.halfOpenMaxRequests) :
    callCB cfg s now b = (.circuitOpen, s) := by
  simp [callCB, stateCheck, shouldAttemptReset, hs, hfull]

theorem callCB_halfOpen_fail (cfg : CircuitBreakerConfig) (s : CircuitStateData)
    (now : Nat) (hs : s.state = .halfOpen)
    (hadm : s.halfOpenAttempts < cfg.halfOpenMaxRequests) :
    callCB cfg s now false =
      (.innerErr,
        { state := .opened, failureCount := 0, successCount := 0,
          lastFailureTime := some now, halfOpenAttempts := 0 }) := by
  simp [callCB, stateCheck, shouldAttemptReset, executeCall, onFailure,
    CircuitStateData.reset, hs, Nat.not_le.mpr hadm]

theorem callCB_halfOpen_succ_close (cfg : CircuitBreakerConfig)
    (s : CircuitStateData) (now : Nat) (hs : s.state = .halfOpen)
    (hadm : s.halfOpenAttempts < cfg.halfOpenMaxRequests)
    (hcl : s.successCount + 1 ≥ cfg.successThreshold) :
    callCB cfg s now true =
      (.ok,
        { state := .closed, failureCount := 0, successCount := 0,
          lastFailureTime := s.lastFailureTime, halfOpenAttempts := 0 }) := by
  simp [callCB, stateCheck, shouldAttemptReset, executeCall, onSuccess,
    CircuitStateData.reset, hs, Nat.not_le.mpr hadm, hcl]

theorem callCB_halfOpen_succ_stay (cfg : CircuitBreakerConfig)
    (s : CircuitStateData) (now : Nat) (hs : s.state = .halfOpen)
    (hadm : s.halfOpenAttempts < cfg.halfOpenMaxRequests)
    (hcl : ¬ s.successCount + 1 ≥ cfg.successThreshold) :
    callCB cfg s now true =
      (.ok,
        { s with successCount := s.successCount + 1,
                 halfOpenAttempts := s.halfOpenAttempts + 1 }) := by
  simp [callCB, stateCheck, shouldAttemptReset, executeCall, onSuccess,
    hs, Nat.not_le.mpr hadm, hcl]

theorem callSeq_cons (cfg : CircuitBreakerConfig) (s : CircuitStateData)
    (e : Nat × Bool) (events : List (Nat × Bool)) :
    callSeq cfg s (e :: events) = callSeq cfg (callCB cfg s e.1 e.2).2 events := by
  simp [callSeq]

theorem closed_failures_open (cfg : CircuitBreakerConfig) :
    ∀ (ts : List Nat) (tlast : Nat) (s : CircuitStateData),
      s.state = .closed →
      s.failureCount + ts.length + 1 = cfg.failureThreshold →
      callSeq cfg s ((ts ++ [tlast]).map (fun t => (t, false)))
        = { state := .opened, failureCount := cfg.failureThreshold,
            successCount := s.successCount, lastFailureTime := some tlast,
            halfOpenAttempts := s.halfOpenAttempts } := by
  intro ts
  induction ts with
  | nil =>
      intro tlast s hs hc
      simp only [List.length_nil] at hc
      simp only [List.nil_append, List.map_cons, List.map_nil]
      rw [callSeq_cons]
      rw [callCB_closed_fail_open cfg s tlast hs (by omega)]
      simp only [callSeq, List.foldl_nil]
      cases s
      simp_all
  | cons t ts ih =>
      intro tlast s hs hc
      simp only [List.cons_append, List.map_cons]
      rw [callSeq_cons]
      rw [callCB_closed_fail_stay cfg s t hs (by simp at hc; omega)]
      have := ih tlast
        { s with failureCount := s.failureCount + 1, lastFailureTime := some t }
        (by simp [hs]) (by simp at hc ⊢; omega)
      simpa using this

theorem halfOpen_successes_close (cfg : CircuitBreakerConfig) :
    ∀ (ts : List Nat) (s : CircuitStateData),
      s.state = .halfOpen →
      s.successCount + ts.length = cfg.successThreshold →
      1 ≤ ts.length →
      s.halfOpenAttempts + ts.length ≤ cfg.halfOpenMaxRequests →
      (callSeq cfg s (ts.map (fun t => (t, true)))).state = .closed := by
  intro ts
  induction ts with
  | nil => intro s _ _ h1 _; simp at h1
  | cons t rest ih =>
      intro s hs hsc h1 hat
      simp only [List.length_cons] at hsc hat
      have hadm : s.halfOpenAttempts < cfg.halfOpenMaxRequests := by omega
      simp only [List.map_cons]
      rw [callSeq_cons]
      by_cases hcl : s.successCount + 1 ≥ cfg.successThreshold
      · have hrest : rest = [] := List.length_eq_zero.mp (by omega)
        subst hrest
        rw [callCB_halfOpen_succ_close cfg s t hs hadm hcl]
        simp [callSeq]
      · rw [callCB_halfOpen_succ_stay cfg s t hs hadm hcl]
        exact ih _ (by simp [hs]) (by simp; omega) (by omega) (by simp; omega)

theorem halfOpen_successes_stall (cfg : CircuitBreakerConfig) :
    ∀ (ts : List Nat) (s : CircuitStateData),
      s.state = .halfOpen →
      s.successCount + ts.length < cfg.successThreshold →
      s.halfOpenAttempts + ts.length ≤ cfg.halfOpenMaxRequests →
      callSeq cfg s (ts.map (fun t => (t, true)))
        = { s with successCount := s.successCount + ts.length,
                   halfOpenAttempts := s.halfOpenAttempts + ts.length } := by
  intro ts
  induction ts with
  | nil =>
      intro s _ _ _
      simp [callSeq]
  | cons t rest ih =>
      intro s hs hsc hat
      simp only [List.length_cons] at hsc hat
      have hadm : s.halfOpenAttempts < cfg.halfOpenMaxRequests := by omega
      have hcl : ¬ s.successCount + 1 ≥ cfg.successThreshold := by omega
      simp only [List.map_cons]
      rw [callSeq_cons]
      rw [callCB_halfOpen_succ_stay cfg s t hs hadm hcl]
      have := ih
        { s with successCount := s.successCount + 1,
                 halfOpenAttempts := s.halfOpenAttempts + 1 }
        (by simp [hs]) (by simp; omega) (by simp; omega)
      rw [this]
      simp only [List.length_cons]
      congr 1 <;> omega

theorem halfOpen_full_stuck (cfg : CircuitBreakerConfig) (s : CircuitStateData)
    (hs : s.state = .halfOpen)
    (hfull : s.halfOpenAttempts ≥ cfg.halfOpenMaxRequests) :
    ∀ evts, callSeq cfg s evts = s := by
  intro evts
  induction evts with
  | nil => rfl
  | cons e rest ih =>
      rw [callSeq_cons, callCB_halfOpen_full cfg s e.1 e.2 hs hfull]
      exact ih

/-- C5: the circuit-breaker state machine laws.  From a fresh (Closed)
breaker, `failure_threshold` consecutive failures (the last at `tlast`)
leave the breaker Open with the last failure stamped; while the timeout
has not elapsed every call is short-circuited with `CircuitOpen` and the
state is untouched regardless of what the wrapped operation would do
(i.e. it is not run); once `open_timeout` has elapsed a probe is
admitted and runs; `success_threshold` consecutive successful probes
(admissible because `success_threshold ≤ half_open_max_requests`) close
the breaker; and any admitted probe failure re-opens it, stamping the
failure time. -/
theorem c5_circuit_breaker_laws (cfg : CircuitBreakerConfig)
    (hst : 1 ≤ cfg.successThreshold)
    (hsm : cfg.successThreshold ≤ cfg.halfOpenMaxRequests)
    (ts : List Nat) (tlast : Nat)
    (hlen : ts.length + 1 = cfg.failureThreshold) :
    callSeq cfg CircuitStateData.new ((ts ++ [tlast]).map (fun t => (t, false)))
      = openedAt cfg tlast ∧
    (∀ (t : Nat) (b : Bool), t - tlast < cfg.timeout →
      callCB cfg (openedAt cfg tlast) t b = (.circuitOpen, openedAt cfg tlast)) ∧
    (∀ t : Nat, tlast + cfg.timeout ≤ t →
      (callCB cfg (openedAt cfg tlast) t true).1 = .ok) ∧
    (∀ (t : Nat) (us : List Nat), tlast + cfg.timeout ≤ t →
      us.length + 1 = cfg.successThreshold →
      (callSeq cfg (openedAt cfg tlast)
        ((t, true) :: us.map (fun u => (u, true)))).state = .closed) ∧
    (∀ (s : CircuitStateData) (t : Nat), s.state = .halfOpen →
      s.halfOpenAttempts < cfg.halfOpenMaxRequests →
      callCB cfg s t false =
        (.innerErr,
          { state := .opened, failureCount := 0, successCount := 0,
            lastFailureTime := some t, halfOpenAttempts := 0 })) := by
  have hopen : callSeq cfg CircuitStateData.new
      ((ts ++ [tlast]).map (fun t => (t, false))) = openedAt cfg tlast := by
    rw [closed_failures_open cfg ts tlast CircuitStateData.new rfl
      (by simpa [CircuitStateData.new] using hlen)]
    rfl
  have hshort : ∀ (t : Nat) (b : Bool), t - tlast < cfg.timeout →
      callCB cfg (openedAt cfg tlast) t b = (.circuitOpen, openedAt cfg tlast) := by
    intro t b ht
    apply callCB_open_short cfg _ t b rfl
    simp [shouldAttemptReset, openedAt]
    omega
  have hreset : ∀ t : Nat, tlast + cfg.timeout ≤ t →
      stateCheck cfg (openedAt cfg tlast) t =
        (.halfOpen,
          { state := .halfOpen, failureCount := 0, successCount := 0,
            lastFailureTime := some tlast, halfOpenAttempts := 0 }) := by
    intro t ht
    have hsr : shouldAttemptReset (openedAt cfg tlast) cfg.timeout t = true := by
      simp [shouldAttemptReset, openedAt]
      omega
    unfold stateCheck
    rw [hsr]
    simp [CircuitStateData.reset, openedAt]
  have hprobe : ∀ t : Nat, tlast + cfg.timeout ≤ t →
      callCB cfg (openedAt cfg tlast) t true =
        executeCall cfg
          { state := .halfOpen, failureCount := 0, successCount := 0,
            lastFailureTime := some tlast, halfOpenAttempts := 1 } t true := by
    intro t ht
    rw [callCB]
    rw [hreset t ht]
    have hmax : ¬ (0 ≥ cfg.halfOpenMaxRequests) := by omega
    simp [hmax]
  refine ⟨hopen, hshort, ?_, ?_, ?_⟩
  · intro t ht
    rw [hprobe t ht]
    simp [executeCall]
  · intro t us ht hus
    rw [callSeq_cons]
    have hcb : (callCB cfg (openedAt cfg tlast) t true).2 =
        (executeCall cfg
          { state := .halfOpen, failureCount := 0, successCount := 0,
            lastFailureTime := some tlast, halfOpenAttempts := 1 } t true).2 := by
      rw [hprobe t ht]
    rw [hcb]
    by_cases hone : cfg.successThreshold = 1
    · have hus0 : us = [] := List.length_eq_zero.mp (by omega)
      subst hus0
      simp [executeCall, onSuccess, hone, CircuitStateData.reset, callSeq]
    · have hstay : (executeCall cfg
          { state := .halfOpen, failureCount := 0, successCount := 0,
            lastFailureTime := some tlast, halfOpenAttempts := 1 } t true).2 =
          { state := .halfOpen, failureCount := 0, successCount := 1,
            lastFailureTime := some tlast, halfOpenAttempts := 1 } := by
        have : ¬ (0 + 1 ≥ cfg.successThreshold) := by omega
        simp [executeCall, onSuccess]
        simp at this
        omega
      rw [hstay]
      exact halfOpen_successes_close cfg us _ rfl (by simp; omega) (by omega)
        (by simp; omega)
  · intro s t hs hadm
    exact callCB_halfOpen_fail cfg s t hs hadm

/-- C5 witness: thresholds 2/2, timeout 60, three half-open slots; two
failures at times 5 and 10 open the breaker, a call at time 30 is
short-circuited, a probe at 70 is admitted, probes at 70 and 71 close
the breaker, and an admitted probe failure re-opens. -/
theorem c5_circuit_breaker_witness :
    callSeq ⟨2, 2, 60, 3⟩ CircuitStateData.new
      (([5] ++ [10]).map (fun t => (t, false))) = openedAt ⟨2, 2, 60, 3⟩ 10 ∧
    (∀ (t : Nat) (b : Bool), t - 10 < (⟨2, 2, 60, 3⟩ : CircuitBreakerConfig).timeout →
      callCB ⟨2, 2, 60, 3⟩ (openedAt ⟨2, 2, 60, 3⟩ 10) t b =
        (.circuitOpen, openedAt ⟨2, 2, 60, 3⟩ 10)) ∧
    (∀ t : Nat, 10 + (⟨2, 2, 60, 3⟩ : CircuitBreakerConfig).timeout ≤ t →
      (callCB ⟨2, 2, 60, 3⟩ (openedAt ⟨2, 2, 60, 3⟩ 10) t true).1 = .ok) ∧
    (∀ (t : Nat) (us : List Nat),
      10 + (⟨2, 2, 60, 3⟩ : CircuitBreakerConfig).timeout ≤ t →
      us.length + 1 = (⟨2, 2, 60, 3⟩ : CircuitBreakerConfig).successThreshold →
      (callSeq ⟨2, 2, 60, 3⟩ (openedAt ⟨2, 2, 60, 3⟩ 10)
        ((t, true) :: us.map (fun u => (u, true)))).state = .closed) ∧
    (∀ (s : CircuitStateData) (t : Nat), s.state = .halfOpen →
      s.halfOpenAttempts < (⟨2, 2, 60, 3⟩ : CircuitBreakerConfig).halfOpenMaxRequests →
      callCB ⟨2, 2, 60, 3⟩ s t false =
        (.innerErr,
          { state := .opened, failureCount := 0, successCount := 0,
            lastFailureTime := some t, halfOpenAttempts := 0 })) :=
  c5_circuit_breaker_laws ⟨2, 2, 60, 3⟩ (by decide) (by decide)
    [5] 10 (by decide)

/-- C10: with `success_threshold > half_open_max_requests`, once the
breaker enters HalfOpen (fresh counters) and all
`half_open_max_requests` admitted probes succeed, the success counter
can never reach the threshold: the breaker stays HalfOpen forever, every
subsequent call is rejected with `CircuitOpen`, and no sequence of
further calls changes the state (the Open-timeout reset only applies in
the Open state). -/
theorem c10_half_open_stall (cfg : CircuitBreakerConfig)
    (hgt : cfg.halfOpenMaxRequests < cfg.successThreshold)
    (s : CircuitStateData) (hs : s.state = .halfOpen)
    (hsc : s.successCount = 0) (hha : s.halfOpenAttempts = 0)
    (ts : List Nat) (hlen : ts.length = cfg.halfOpenMaxRequests) :
    (callSeq cfg s (ts.map (fun t => (t, true)))).state = .halfOpen ∧
    (∀ (t : Nat) (b : Bool),
      callCB cfg (callSeq cfg s (ts.map (fun t => (t, true)))) t b =
        (.circuitOpen, callSeq cfg s (ts.map (fun t => (t, true))))) ∧
    (∀ evts, callSeq cfg (callSeq cfg s (ts.map (fun t => (t, true)))) evts =
      callSeq cfg s (ts.map (fun t => (t, true)))) := by
  have hfill : callSeq cfg s (ts.map (fun t => (t, true)))
      = { s with successCount := s.successCount + ts.length,
                 halfOpenAttempts := s.halfOpenAttempts + ts.length } := by
    apply halfOpen_successes_stall cfg ts s hs (by omega) (by omega)
  rw [hfill]
  refine ⟨by simp [hs], ?_, ?_⟩
  · intro t b
    exact callCB_halfOpen_full cfg _ t b (by simp [hs]) (by simp; omega)
  · intro evts
    exact halfOpen_full_stuck cfg _ (by simp [hs]) (by simp; omega) evts

/-- C10 witness: threshold 2 successes but only 1 admitted probe; after
the probe at time 7 succeeds, a call at time 1000 (well past the
timeout) is still rejected and the state is unchanged. -/
theorem c10_half_open_stall_witness :
    (callSeq ⟨1, 2, 60, 1⟩ ⟨.halfOpen, 0, 0, some 0, 0⟩
      ([7].map (fun t => (t, true)))).state = .halfOpen ∧
    (∀ (t : Nat) (b : Bool),
      callCB ⟨1, 2, 60, 1⟩
        (callSeq ⟨1, 2, 60, 1⟩ ⟨.halfOpen, 0, 0, some 0, 0⟩
          ([7].map (fun t => (t, true)))) t b =
        (.circuitOpen,
          callSeq ⟨1, 2, 60, 1⟩ ⟨.halfOpen, 0, 0, some 0, 0⟩
            ([7].map (fun t => (t, true))))) ∧
    (∀ evts, callSeq ⟨1, 2, 60, 1⟩
        (callSeq ⟨1, 2, 60, 1⟩ ⟨.halfOpen, 0, 0, some 0, 0⟩
          ([7].map (fun t => (t, true)))) evts =
      callSeq ⟨1, 2, 60, 1⟩ ⟨.halfOpen, 0, 0, some 0, 0⟩
        ([7].map (fun t => (t, true)))) :=
  c10_half_open_stall ⟨1, 2, 60, 1⟩ (by decide) ⟨.halfOpen, 0, 0, some 0, 0⟩
    (by decide) (by decide) (by decide) [7] (by decide)

end ScryfallCache
